import Mathlib

/-!
Verification of the request-signing and request-construction pipeline of the
talkbank банking API JS client (`src/Client.js`), shallowly embedded in Lean.
Strings are modelled as Lean `String` (lists of characters); bytes as `Nat`
below 256; machine words as `Nat` reduced modulo `2 ^ 32`.
-/

namespace TalkBank

/-! ### Bytes, hex and UTF-8 helpers -/

/-- UTF-8 encoding of a single character, as a list of byte values. -/
def utf8Bytes (c : Char) : List Nat :=
  let n := c.toNat
  if n < 0x80 then [n]
  else if n < 0x800 then [0xC0 + n / 64, 0x80 + n % 64]
  else if n < 0x10000 then [0xE0 + n / 4096, 0x80 + (n / 64) % 64, 0x80 + n % 64]
  else [0xF0 + n / 262144, 0x80 + (n / 4096) % 64, 0x80 + (n / 64) % 64, 0x80 + n % 64]

/-- UTF-8 bytes of a string. -/
def strBytes (s : String) : List Nat :=
  s.data.flatMap utf8Bytes

/-- Lowercase hexadecimal digit. -/
def hexDigL (n : Nat) : Char :=
  if n < 10 then Char.ofNat (48 + n) else Char.ofNat (87 + n)

/-- Lowercase hex rendering of a byte list. -/
def bytesToHex (bs : List Nat) : String :=
  ⟨bs.flatMap (fun b => [hexDigL (b / 16), hexDigL (b % 16)])⟩

/-! ### SHA-256 over Nat words (FIPS 180-4) -/

def M32 : Nat := 4294967296

def rotr (n x : Nat) : Nat := (x >>> n) ||| ((x <<< (32 - n)) % M32)

def shaCh (x y z : Nat) : Nat := (x &&& y) ^^^ ((x ^^^ 4294967295) &&& z)

def shaMaj (x y z : Nat) : Nat := (x &&& y) ^^^ (x &&& z) ^^^ (y &&& z)

def bigSigma0 (x : Nat) : Nat := rotr 2 x ^^^ rotr 13 x ^^^ rotr 22 x

def bigSigma1 (x : Nat) : Nat := rotr 6 x ^^^ rotr 11 x ^^^ rotr 25 x

def smallSigma0 (x : Nat) : Nat := rotr 7 x ^^^ rotr 18 x ^^^ (x >>> 3)

def smallSigma1 (x : Nat) : Nat := rotr 17 x ^^^ rotr 19 x ^^^ (x >>> 10)

/-- The sixty-four SHA-256 round constants, written in decimal. -/
def shaK : List Nat :=
  [1116352408, 1899447441, 3049323471, 3921009573, 961987163, 1508970993,
   2453635748, 2870763221, 3624381080, 310598401, 607225278, 1426881987,
   1925078388, 2162078206, 2614888103, 3248222580, 3835390401, 4022224774,
   264347078, 604807628, 770255983, 1249150122, 1555081692, 1996064986,
   2554220882, 2821834349, 2952996808, 3210313671, 3336571891, 3584528711,
   113926993, 338241895, 666307205, 773529912, 1294757372, 1396182291,
   1695183700, 1986661051, 2177026350, 2456956037, 2730485921, 2820302411,
   3259730800, 3345764771, 3516065817, 3600352804, 4094571909, 275423344,
   430227734, 506948616, 659060556, 883997877, 958139571, 1322822218,
   1537002063, 1747873779, 1955562222, 2024104815, 2227730452, 2361852424,
   2428436474, 2756734187, 3204031479, 3329325298]

/-- The eight SHA-256 initial hash words, written in decimal. -/
def shaH0 : List Nat :=
  [1779033703, 3144134277, 1013904242, 2773480762,
   1359893119, 2600822924, 528734635, 1541459225]

/-- SHA-256 padding: append 0x80, zero bytes, then the 64-bit big-endian bit length. -/
def padMsg (msg : List Nat) : List Nat :=
  let l := msg.length
  let k := (119 - (l % 64)) % 64
  let bitLen := 8 * l
  msg ++ [0x80] ++ List.replicate k 0 ++ (List.range 8).map (fun i => (bitLen >>> (8 * (7 - i))) % 256)

/-- First n elements and remainder, structurally recursive. -/
def takeBlock : Nat → List Nat → (List Nat × List Nat)
  | 0, l => ([], l)
  | _ + 1, [] => ([], [])
  | n + 1, a :: l =>
    let p := takeBlock n l
    (a :: p.1, p.2)

/-- Splits a byte list into 64-byte blocks; fuel-driven so it is structurally recursive. -/
def toBlocksF : Nat → List Nat → List (List Nat)
  | 0, _ => []
  | _, [] => []
  | fuel + 1, a :: l =>
    let p := takeBlock 64 (a :: l)
    p.1 :: toBlocksF fuel p.2

/-- Four big-endian bytes at a time into 32-bit words. -/
def toWords : List Nat → List Nat
  | b0 :: b1 :: b2 :: b3 :: rest =>
    (b0 * 16777216 + b1 * 65536 + b2 * 256 + b3) :: toWords rest
  | _ => []

/-- Extends the 16-word block to the 64-word message schedule. -/
def extendSchedule (w : Array Nat) : Array Nat :=
  (List.range 48).foldl
    (fun w i =>
      w.push ((smallSigma1 (w.getD (i + 14) 0) + w.getD (i + 9) 0 +
               smallSigma0 (w.getD (i + 1) 0) + w.getD i 0) % M32))
    w

structure SState where
  a : Nat
  b : Nat
  c : Nat
  d : Nat
  e : Nat
  f : Nat
  g : Nat
  h : Nat

/-- One SHA-256 compression over a 64-byte block. -/
def compressBlock (hs : List Nat) (block : List Nat) : List Nat :=
  let w := extendSchedule (toWords block).toArray
  let init : SState :=
    ⟨hs.getD 0 0, hs.getD 1 0, hs.getD 2 0, hs.getD 3 0,
     hs.getD 4 0, hs.getD 5 0, hs.getD 6 0, hs.getD 7 0⟩
  let fin := (List.range 64).foldl
    (fun s i =>
      let t1 := (s.h + bigSigma1 s.e + shaCh s.e s.f s.g + shaK.getD i 0 + w.getD i 0) % M32
      let t2 := (bigSigma0 s.a + shaMaj s.a s.b s.c) % M32
      ⟨(t1 + t2) % M32, s.a, s.b, s.c, (s.d + t1) % M32, s.e, s.f, s.g⟩)
    init
  [(hs.getD 0 0 + fin.a) % M32, (hs.getD 1 0 + fin.b) % M32,
   (hs.getD 2 0 + fin.c) % M32, (hs.getD 3 0 + fin.d) % M32,
   (hs.getD 4 0 + fin.e) % M32, (hs.getD 5 0 + fin.f) % M32,
   (hs.getD 6 0 + fin.g) % M32, (hs.getD 7 0 + fin.h) % M32]

/-- SHA-256 digest (32 bytes) of a byte list. -/
def sha256Bytes (msg : List Nat) : List Nat :=
  let padded := padMsg msg
  let hf := (toBlocksF padded.length padded).foldl compressBlock shaH0
  hf.flatMap (fun w => [(w >>> 24) % 256, (w >>> 16) % 256, (w >>> 8) % 256, w % 256])

/-- Model of the js-sha256 `sha256(str)` call: lowercase hex SHA-256 of the UTF-8 bytes. -/
def sha256Hex (s : String) : String :=
  bytesToHex (sha256Bytes (strBytes s))

/-- Model of node `crypto.createHmac("sha256", key)` fed a UTF-8 string, hex digest. -/
def hmacSha256Hex (key msg : String) : String :=
  let kb := strBytes key
  let k0 := if kb.length > 64 then sha256Bytes kb else kb
  let kp := k0 ++ List.replicate (64 - k0.length) 0
  let inner := sha256Bytes ((kp.map (fun b => b ^^^ 0x36)) ++ strBytes msg)
  bytesToHex (sha256Bytes ((kp.map (fun b => b ^^^ 0x5c)) ++ inner))

/-! ### JavaScript string primitives used by the source -/

/-- Characters removed by JS `String.prototype.trim` (WhiteSpace and LineTerminator). -/
def jsWs (c : Char) : Bool :=
  c = ' ' || c = '\t' || c = '\n' || c = '\r' ||
  c.toNat = 0x0B || c.toNat = 0x0C || c.toNat = 0xA0 || c.toNat = 0x1680 ||
  (0x2000 ≤ c.toNat && c.toNat ≤ 0x200A) ||
  c.toNat = 0x2028 || c.toNat = 0x2029 || c.toNat = 0x202F ||
  c.toNat = 0x205F || c.toNat = 0x3000 || c.toNat = 0xFEFF

/-- Removes trailing whitespace of a character list. -/
def trimEnd (l : List Char) : List Char :=
  (l.reverse.dropWhile jsWs).reverse

/-- Removes leading and trailing whitespace of a character list. -/
def trimL (l : List Char) : List Char :=
  trimEnd (l.dropWhile jsWs)

/-- Model of JS `s.trim()`. -/
def jsTrim (s : String) : String :=
  ⟨trimL s.data⟩

/-- ASCII uppercase map; the methods passed by the source are ASCII strings. -/
def jsUpChar (c : Char) : Char :=
  if 'a' ≤ c && c ≤ 'z' then Char.ofNat (c.toNat - 32) else c

/-- Model of JS `s.toUpperCase()` on the ASCII strings the source uses. -/
def jsToUpper (s : String) : String :=
  ⟨s.data.map jsUpChar⟩

/-! ### JSON values and `JSON.stringify` -/

/-- JavaScript values stored in request bodies and parameter mappings. -/
inductive JVal where
  | str (s : String)
  | num (n : Int)
  | bool (b : Bool)
  | null
  | undef
  | obj (fields : List (String × JVal))
  | arr (elems : List JVal)

/-- True exactly for `null` and `undefined`, the strict-equality test of `filterData`. -/
def isNullish : JVal → Bool
  | .null => true
  | .undef => true
  | _ => false

/-- JSON string escaping as performed by `JSON.stringify`. -/
def escChar (c : Char) : List Char :=
  if c = '"' then ['\\', '"']
  else if c = '\\' then ['\\', '\\']
  else if c = '\n' then ['\\', 'n']
  else if c = '\r' then ['\\', 'r']
  else if c = '\t' then ['\\', 't']
  else if c.toNat = 8 then ['\\', 'b']
  else if c.toNat = 12 then ['\\', 'f']
  else if c.toNat < 32 then
    ['\\', 'u', '0', '0', hexDigL (c.toNat / 16), hexDigL (c.toNat % 16)]
  else [c]

/-- Quoted JSON string literal. -/
def jsonQuote (s : String) : String :=
  ⟨'"' :: s.data.flatMap escChar ++ ['"']⟩

mutual

/-- Model of `JSON.stringify` on a value; `none` for `undefined` (which stringifies to nothing). -/
def jsonVal : JVal → Option String
  | .str s => some (jsonQuote s)
  | .num n => some (toString n)
  | .bool b => some (cond b "true" "false")
  | .null => some "null"
  | .undef => none
  | .obj fs => some ("\x7b" ++ String.intercalate "," (jsonFields fs) ++ "\x7d")
  | .arr es => some ("[" ++ String.intercalate "," (jsonElems es) ++ "]")

/-- Object members; entries with `undefined` value are omitted, as in `JSON.stringify`. -/
def jsonFields : List (String × JVal) → List String
  | [] => []
  | (k, v) :: rest =>
    match jsonVal v with
    | some s => (jsonQuote k ++ ":" ++ s) :: jsonFields rest
    | none => jsonFields rest

/-- Array members; `undefined` elements become `null`, as in `JSON.stringify`. -/
def jsonElems : List JVal → List String
  | [] => []
  | v :: rest =>
    (match jsonVal v with
     | some s => s
     | none => "null") :: jsonElems rest

end

/-- Model of `JSON.stringify(data)` for an object body, as in `createRequest`. -/
def jsonStringifyObj (fs : List (String × JVal)) : String :=
  "\x7b" ++ String.intercalate "," (jsonFields fs) ++ "\x7d"

/-! ### Query values and the query-string `stringify` -/

/-- Scalar query-parameter values. -/
inductive QVal where
  | str (s : String)
  | num (n : Int)
  | null
  | undef

/-- Unreserved characters kept verbatim by strict `encodeURIComponent` encoding. -/
def unreservedChar (c : Char) : Bool :=
  c.isAlpha || c.isDigit || c = '-' || c = '_' || c = '.' || c = '~'

/-- Uppercase hexadecimal digit, as produced by percent-encoding. -/
def hexDigU (n : Nat) : Char :=
  if n < 10 then Char.ofNat (48 + n) else Char.ofNat (55 + n)

/-- Strict percent-encoding of one character (UTF-8 bytes, uppercase hex). -/
def encChar (c : Char) : List Char :=
  if unreservedChar c then [c]
  else (utf8Bytes c).flatMap (fun b => ['%', hexDigU (b / 16), hexDigU (b % 16)])

/-- Strict percent-encoding of a string, as the query-string package applies it. -/
def encodeStr (s : String) : String :=
  ⟨s.data.flatMap encChar⟩

/-- Lexicographic comparison of character lists by code point, the order JS
`Array.prototype.sort()` applies to the keys the source passes (all of them BMP). -/
def charListLt : List Char → List Char → Bool
  | [], [] => false
  | [], _ :: _ => true
  | _ :: _, [] => false
  | a :: as, b :: bs =>
    if a.toNat < b.toNat then true
    else if b.toNat < a.toNat then false
    else charListLt as bs

/-- JS default string ordering on the modelled strings. -/
def jsStrLt (a b : String) : Bool :=
  charListLt a.data b.data

/-- Insertion into a key-sorted list, modelling the default key sort of the package. -/
def insertSorted (kv : String × QVal) : List (String × QVal) → List (String × QVal)
  | [] => [kv]
  | x :: xs => if jsStrLt kv.1 x.1 then kv :: x :: xs else x :: insertSorted kv xs

/-- Sorts entries by key, the default behaviour of query-string `stringify`. -/
def sortByKey (m : List (String × QVal)) : List (String × QVal) :=
  m.foldr insertSorted []

/-- Rendering of one sorted entry: `undefined` skipped, `null` gives a bare key. -/
def queryEntry : String × QVal → Option String
  | (_, .undef) => none
  | (k, .null) => some (encodeStr k)
  | (k, .str s) => some (encodeStr k ++ "=" ++ encodeStr s)
  | (k, .num n) => some (encodeStr k ++ "=" ++ encodeStr (toString n))

/-- Model of `queryString.stringify(query)` (query-string package, default options):
entries sorted by key, strict-encoded, `undefined` dropped, `null` as bare key;
`stringify(null)` is the empty string. -/
def stringifyQuery : Option (List (String × QVal)) → String
  | none => ""
  | some m => String.intercalate "&" ((sortByKey m).filterMap queryEntry)

/-! ### URL parsing (`getLocation`, source lines 1144-1156) -/

/-- Parsed URL parts, one field per capture group of the source regex. -/
structure UrlLocation where
  href : String
  protocol : String
  host : String
  hostname : String
  port : Option String
  pathname : String
  search : String
  fragment : String
deriving DecidableEq

/-- JS regex `.` excludes the four LineTerminator characters. -/
def lineTerm (c : Char) : Bool :=
  c = '\n' || c = '\r' || c.toNat = 0x2028 || c.toNat = 0x2029

/-- Characters allowed in the hostname group `[^:\/?#]*`. -/
def hostChar (c : Char) : Bool :=
  !(c = ':' || c = '/' || c = '?' || c = '#')

/-- Characters allowed in the pathname group `[\/]{0,1}[^?#]*` (the optional slash is
itself a non-`?#` character, so the group takes the longest `?`- and `#`-free prefix). -/
def pathChar (c : Char) : Bool :=
  !(c = '?' || c = '#')

/-- Source regex `^(https?\:)\/\/(([^:\/?#]*)(?:\:([0-9]+))?)([\/]{0,1}[^?#]*)(\?[^#]*|)(#.*|)$`,
as a deterministic matcher. The anchored greedy match is deterministic: the protocol
alternatives are mutually exclusive prefixes, each later group consumes the longest run its
character class allows, shrinking the optional port group never rescues a failed match, and
the only way the whole match fails after the protocol is a LineTerminator inside the
fragment, which `.` cannot cross. -/
def getLocation (href : String) : Option UrlLocation :=
  let d := href.data
  let protoRest : Option (String × List Char) :=
    if d.take 8 = "https://".data then some ("https:", d.drop 8)
    else if d.take 7 = "http://".data then some ("http:", d.drop 7)
    else none
  match protoRest with
  | none => none
  | some (proto, r) =>
    let hn := r.takeWhile hostChar
    let r1 := r.dropWhile hostChar
    let pr : Option (List Char) × List Char :=
      match r1 with
      | ':' :: t =>
        let ds := t.takeWhile Char.isDigit
        if ds = [] then (none, r1) else (some ds, t.dropWhile Char.isDigit)
      | _ => (none, r1)
    let port := pr.1
    let r2 := pr.2
    let pn := r2.takeWhile pathChar
    let r3 := r2.dropWhile pathChar
    let host : String := ⟨hn ++ (match port with | some p => ':' :: p | none => [])⟩
    let mk : String → String → Option UrlLocation := fun search frag =>
      some ⟨href, proto, host, ⟨hn⟩, port.map (fun p => ⟨p⟩), ⟨pn⟩, search, frag⟩
    match r3 with
    | [] => mk "" ""
    | '?' :: _ =>
      let srch := r3.takeWhile (fun c => !(c = '#'))
      let r4 := r3.dropWhile (fun c => !(c = '#'))
      match r4 with
      | [] => mk ⟨srch⟩ ""
      | _ :: t => if t.any lineTerm then none else mk ⟨srch⟩ ⟨r4⟩
    | _ :: t => if t.any lineTerm then none else mk "" ⟨r3⟩

/-! ### The client (constructor, signing, request construction) -/

/-- Errors raised synchronously by the modelled code paths. -/
inductive JsError where
  | typeError
  | referenceError
deriving DecidableEq

/-- The headers object of the config template. Field `tbContentSha256` stands for the
`tb-content-sha256` key (absent in the template, hence optional) and `contentType` for
`Content-Type`. -/
structure Headers where
  Authorization : String
  date : String
  host : String
  contentType : String
  tbContentSha256 : Option String
deriving DecidableEq

/-- The axios config: also the value handed to the transport, so it doubles as the
outbound request. `data` is the serialized body, present only when a body is attached. -/
structure ReqConfig where
  method : String
  url : String
  headers : Headers
  data : Option String
deriving DecidableEq

/-- Client instance state set by the constructor (source lines 15-31). -/
structure Client where
  partnerId : String
  token : String
  baseUrl : String
  urlLocation : UrlLocation
  config : ReqConfig
deriving DecidableEq

/-- Default base URL used when the `baseUrl` argument is falsy. -/
def defaultBaseUrl : String := "https://baas_test.talkbank.io/api/v1"

/-- Constructor model. A falsy `baseUrl` (absent or empty string) is replaced by the
default; when `getLocation` yields `null`, reading `.host` from it at line 27 throws a
TypeError, modelled as `Except.error`. -/
def mkClient (partnerId token : String) (baseUrl : Option String) : Except JsError Client :=
  let base := match baseUrl with
    | some b => if b = "" then defaultBaseUrl else b
    | none => defaultBaseUrl
  match getLocation base with
  | none => .error .typeError
  | some loc =>
    .ok ⟨partnerId, token, base, loc,
         ⟨"", "", ⟨"", "", loc.host, "application/json", none⟩, none⟩⟩

/-- Canonical string assembled by `getSignature` (source lines 40-48): the white-listed
header lines are each trimmed as whole `label:value` strings, joined with a newline
(`headerString`, inlined here), and the joined block is trimmed once more. -/
def canonicalString (method url query date sha : String) : String :=
  jsToUpper method ++ "\n" ++ "/api/v1" ++ jsTrim url ++ "\n" ++ jsTrim query ++ "\n" ++
    jsTrim (jsTrim ("date:" ++ date) ++ "\n" ++ jsTrim ("tb-content-sha256:" ++ sha)) ++
    "\n" ++ jsTrim sha

/-- Model of `getSignature(config, query, url)` (source lines 34-56), reading
`this.token` and `this.partnerId` as explicit arguments. The source reads
`headers['tb-content-sha256']` which is always assigned just before the call; the
never-exercised absent case is modelled with the template-literal coercion
of `undefined`. -/
def getSignature (token partnerId : String) (config : ReqConfig) (query url : String) : String :=
  let sha := match config.headers.tbContentSha256 with
    | some s => s
    | none => "undefined"
  "TB1-HMAC-SHA256 " ++ partnerId ++ ":" ++
    hmacSha256Hex token (canonicalString config.method url query config.headers.date sha)

/-- The `options` bag of `createRequest`. -/
structure ReqOptions where
  rewriteUri : Bool
deriving DecidableEq

/-- Truthiness of `options && options.rewriteUri`. -/
def rewriteOpt : Option ReqOptions → Bool
  | some o => o.rewriteUri
  | none => false

/-- Model of `createRequest(url, method, data, query, options)` (source lines 68-94).
The wall-clock read `new Date().toUTCString()` is the explicit argument `now`. Returns
the client state after the call paired with the config dispatched to axios. Two source
facts are modelled exactly: line 79 interpolates `this.url`, a property the instance
never has, so a non-empty query string replaces the whole URL with `"undefined?" ++ qs`;
and `_.clone` is shallow, so the headers object mutated at lines 89-91 is the instance
template's own headers object, which is why the returned client's template carries the
request's headers. -/
def createRequest (c : Client) (url : String) (method : String)
    (data : Option (List (String × JVal))) (query : Option (List (String × QVal)))
    (options : Option ReqOptions) (now : String) : Client × ReqConfig :=
  let resolvedUrl :=
    if rewriteOpt options then c.urlLocation.protocol ++ "//" ++ c.urlLocation.host ++ url
    else c.baseUrl ++ url
  let qs := stringifyQuery query
  let finalUrl := if qs = "" then resolvedUrl else "undefined?" ++ qs
  let hasBody := (match data with
    | some d => !d.isEmpty
    | none => false) && (method == "POST" || method == "PUT")
  let bodyStr := jsonStringifyObj (data.getD [])
  let hash := if hasBody then sha256Hex bodyStr else sha256Hex ""
  let headers1 : Headers :=
    { c.config.headers with date := now, tbContentSha256 := some hash }
  let cfg1 : ReqConfig :=
    { method := method, url := finalUrl, headers := headers1,
      data := if hasBody then some bodyStr else none }
  let auth := getSignature c.token c.partnerId cfg1 qs url
  let headers2 : Headers := { headers1 with Authorization := auth }
  ({ c with config := { c.config with headers := headers2 } },
   { cfg1 with headers := headers2 })

/-- Model of `filterData(data)` (source lines 1134-1142): the for-in/delete loop removes
exactly the entries whose value is strictly `null` or `undefined`, keeping the remaining
entries in order; on a JS object (unique keys) this is the entrywise filter. -/
def filterData : List (String × JVal) → List (String × JVal)
  | [] => []
  | (k, v) :: rest => if isNullish v then filterData rest else (k, v) :: filterData rest

/-- In-place view of `filterData`: objects live in a heap of numbered slots, the call
rewrites the argument slot with the filtered entries and hands back the same reference. -/
def filterDataInPlace (heap : List (List (String × JVal))) (r : Nat) :
    List (List (String × JVal)) × Nat :=
  (heap.set r (filterData (heap.getD r [])), r)

/-- Truthiness of a nullable JS string: non-null and non-empty. -/
def truthyStr : Option String → Bool
  | some s => !(s == "")
  | none => false

/-- Model of `getAccountHistory` (source lines 137-145). The query-building branches
assign to `data`, an identifier with no binding in scope, so the first truthy filter
throws a ReferenceError before any request is built; the branch order is bank, limit,
page, dateFrom, dateTo. With all filters falsy the method issues
`createRequest('/transactions', 'GET', null, {})`. -/
def getAccountHistory (c : Client) (dateFrom dateTo bank limit page : Option String)
    (now : String) : Except JsError ReqConfig :=
  if truthyStr bank || truthyStr limit || truthyStr page ||
     truthyStr dateFrom || truthyStr dateTo then
    .error .referenceError
  else
    .ok (createRequest c "/transactions" "GET" none (some []) none now).2

/-! ### Spec-side canonical-string formulas (for the refinement claims) -/

/-- The canonical string exactly as claim C2 words it: every trim is applied to the value
alone, in particular the date line is `"date:" ++ trim(dateHeader)`. Written from the
spec's words, to be compared with `canonicalString`, which is written from the source. -/
def specCanonicalString (method url query date sha : String) : String :=
  jsToUpper method ++ "\n" ++ "/api/v1" ++ jsTrim url ++ "\n" ++ jsTrim query ++ "\n" ++
    ("date:" ++ jsTrim date ++ "\n" ++ "tb-content-sha256:" ++ jsTrim sha) ++
    "\n" ++ jsTrim sha

/-- The canonical string of the amended claim C2: identical to the spec's formula except
that the two header-line trims wrap the whole `label:value` line. Proved below to agree
with the source's `canonicalString` for all inputs (the outer trim of the joined header
block is the identity). -/
def amendedCanonicalString (method url query date sha : String) : String :=
  jsToUpper method ++ "\n" ++ "/api/v1" ++ jsTrim url ++ "\n" ++ jsTrim query ++ "\n" ++
    (jsTrim ("date:" ++ date) ++ "\n" ++ jsTrim ("tb-content-sha256:" ++ sha)) ++
    "\n" ++ jsTrim sha

/-- Sample client equal to `mkClient "P1" "secret" none`, for concrete instantiations. -/
def sampleClient : Client :=
  ⟨"P1", "secret", defaultBaseUrl,
   ⟨defaultBaseUrl, "https:", "baas_test.talkbank.io", "baas_test.talkbank.io", none,
    "/api/v1", "", ""⟩,
   ⟨"", "", ⟨"", "", "baas_test.talkbank.io", "application/json", none⟩, none⟩⟩

/-- Sanity: the sample client is exactly what the constructor builds by default. -/
lemma mkClient_default : mkClient "P1" "secret" none = .ok sampleClient := rfl

/-! ### Helper lemmas: trimming, filtering, hashing -/

set_option maxRecDepth 40000 in
lemma sha256Hex_empty :
    sha256Hex "" = "e3b0c44298fc1c149afbf4c8996fb92427ae41e4649b934ca495991b7852b855" := by
  decide

lemma dropWhile_append_last {p : Char → Bool} {c : Char} (hc : p c = false) :
    ∀ m : List Char, List.dropWhile p (m ++ [c]) = List.dropWhile p m ++ [c] := by
  intro m
  induction m with
  | nil => simp [List.dropWhile, hc]
  | cons a t ih =>
    rw [List.cons_append, List.dropWhile_cons, List.dropWhile_cons]
    cases ha : p a
    · simp
    · simpa using ih

lemma dropWhile_head_not {p : Char → Bool} :
    ∀ (l : List Char) {c : Char} {t : List Char}, List.dropWhile p l = c :: t → p c = false := by
  intro l
  induction l with
  | nil => intro c t h; simp [List.dropWhile] at h
  | cons a l ih =>
    intro c t h
    rw [List.dropWhile_cons] at h
    by_cases ha : p a = true
    · rw [if_pos ha] at h
      exact ih h
    · rw [if_neg ha] at h
      injection h with h1 _
      rw [← h1]
      simpa using ha

lemma trimEnd_cons_not {c : Char} {l : List Char} (hc : jsWs c = false) :
    trimEnd (c :: l) = c :: trimEnd l := by
  unfold trimEnd
  rw [List.reverse_cons, dropWhile_append_last hc, List.reverse_append]
  simp

lemma trimL_cons_not {c : Char} {l : List Char} (hc : jsWs c = false) :
    trimL (c :: l) = c :: trimEnd l := by
  unfold trimL
  rw [List.dropWhile_cons_of_neg (by simp [hc]), trimEnd_cons_not hc]

lemma reverse_trimL_cons {c : Char} {l : List Char} (hc : jsWs c = false) :
    (trimL (c :: l)).reverse = List.dropWhile jsWs (l.reverse ++ [c]) := by
  unfold trimL trimEnd
  rw [List.dropWhile_cons_of_neg (by simp [hc]), List.reverse_reverse, List.reverse_cons]

lemma trimL_cons_reverse_head {c : Char} {l : List Char} (hc : jsWs c = false) :
    ∃ a t, (trimL (c :: l)).reverse = a :: t ∧ jsWs a = false := by
  rw [reverse_trimL_cons hc, dropWhile_append_last hc]
  cases h : List.dropWhile jsWs l.reverse with
  | nil => exact ⟨c, [], by simp, hc⟩
  | cons a t => exact ⟨a, t ++ [c], by simp, dropWhile_head_not _ h⟩

lemma trimL_eq_self {a b : Char} {x y : List Char} (ha : jsWs a = false) (hb : jsWs b = false)
    (l : List Char) (hx : l = a :: x) (hy : l.reverse = b :: y) : trimL l = l := by
  unfold trimL trimEnd
  rw [hx, List.dropWhile_cons_of_neg (by simp [ha]), ← hx, hy,
     List.dropWhile_cons_of_neg (by simp [hb]), ← hy, List.reverse_reverse]

lemma trimL_join {d0 t0 : Char} (hd : jsWs d0 = false) (ht : jsWs t0 = false)
    (a b : List Char) :
    trimL (trimL (d0 :: a) ++ '\n' :: trimL (t0 :: b)) =
      trimL (d0 :: a) ++ '\n' :: trimL (t0 :: b) := by
  obtain ⟨rb, tb, hrb, hrbws⟩ := trimL_cons_reverse_head (l := b) ht
  have hL : trimL (d0 :: a) ++ '\n' :: trimL (t0 :: b) =
      d0 :: (trimEnd a ++ '\n' :: trimL (t0 :: b)) := by
    rw [trimL_cons_not hd]
    rfl
  have hR : (trimL (d0 :: a) ++ '\n' :: trimL (t0 :: b)).reverse =
      rb :: (tb ++ '\n' :: (trimL (d0 :: a)).reverse) := by
    rw [List.reverse_append, List.reverse_cons, hrb]
    simp
  exact trimL_eq_self hd hrbws _ hL hR

lemma string_data_concat (A B : List Char) :
    ((⟨A⟩ : String) ++ "\n" ++ ⟨B⟩).data = A ++ '\n' :: B := by
  rw [String.data_append, String.data_append]
  show (A ++ ['\n']) ++ B = A ++ '\n' :: B
  rw [List.append_assoc]
  rfl

lemma jsTrim_concat_fix (A B : List Char) (h : trimL (A ++ '\n' :: B) = A ++ '\n' :: B) :
    jsTrim (⟨A⟩ ++ "\n" ++ ⟨B⟩) = ⟨A⟩ ++ "\n" ++ ⟨B⟩ := by
  unfold jsTrim
  rw [string_data_concat, h]
  calc (⟨A ++ '\n' :: B⟩ : String)
      = ⟨(⟨A⟩ ++ "\n" ++ (⟨B⟩ : String)).data⟩ := by rw [string_data_concat]
    _ = ⟨A⟩ ++ "\n" ++ ⟨B⟩ := rfl

lemma jsTrim_header (date sha : String) :
    jsTrim (jsTrim ("date:" ++ date) ++ "\n" ++ jsTrim ("tb-content-sha256:" ++ sha)) =
      jsTrim ("date:" ++ date) ++ "\n" ++ jsTrim ("tb-content-sha256:" ++ sha) := by
  have e1 : jsTrim ("date:" ++ date) =
      ⟨trimL ('d' :: ('a' :: 't' :: 'e' :: ':' :: date.data))⟩ := rfl
  have e2 : jsTrim ("tb-content-sha256:" ++ sha) =
      ⟨trimL ('t' :: ('b' :: '-' :: 'c' :: 'o' :: 'n' :: 't' :: 'e' :: 'n' :: 't' :: '-' ::
        's' :: 'h' :: 'a' :: '2' :: '5' :: '6' :: ':' :: sha.data))⟩ := rfl
  rw [e1, e2]
  exact jsTrim_concat_fix _ _ (trimL_join (by decide) (by decide) _ _)

/-- The outer trim of the joined header block is the identity, so the source's canonical
string equals the amended claim's formula on all inputs. -/
lemma canonical_eq_amended (method url query date sha : String) :
    canonicalString method url query date sha =
      amendedCanonicalString method url query date sha := by
  unfold canonicalString amendedCanonicalString
  rw [jsTrim_header]

lemma isNullish_true {v : JVal} : isNullish v = true ↔ (v = JVal.null ∨ v = JVal.undef) := by
  cases v <;> simp [isNullish]

lemma filterData_mem (m : List (String × JVal)) (k : String) (v : JVal) :
    (k, v) ∈ filterData m ↔ ((k, v) ∈ m ∧ v ≠ JVal.null ∧ v ≠ JVal.undef) := by
  induction m with
  | nil => simp [filterData]
  | cons kv rest ih =>
    obtain ⟨k0, v0⟩ := kv
    by_cases h : isNullish v0 = true
    · rw [filterData, if_pos h]
      rcases isNullish_true.mp h with h0 | h0 <;>
        · subst h0
          rw [ih]
          constructor
          · rintro ⟨hm, hv⟩
            exact ⟨List.mem_cons_of_mem _ hm, hv⟩
          · rintro ⟨hm, hv⟩
            rcases List.mem_cons.mp hm with he | hm2
            · rw [Prod.mk.injEq] at he
              rcases hv with ⟨hv1, hv2⟩
              exact absurd he.2 (by simp_all)
            · exact ⟨hm2, hv⟩
    · rw [filterData, if_neg h]
      have hv0 : v0 ≠ JVal.null ∧ v0 ≠ JVal.undef := by
        constructor <;> · rintro rfl; simp [isNullish] at h
      constructor
      · intro hm
        rcases List.mem_cons.mp hm with he | hm2
        · rw [Prod.mk.injEq] at he
          exact ⟨by rw [he.1, he.2]; exact List.mem_cons_self _ _, he.2 ▸ hv0⟩
        · rcases (ih.mp hm2) with ⟨hm3, hv⟩
          exact ⟨List.mem_cons_of_mem _ hm3, hv⟩
      · rintro ⟨hm, hv⟩
        rcases List.mem_cons.mp hm with he | hm2
        · rw [he]
          exact List.mem_cons_self _ _
        · exact List.mem_cons_of_mem _ (ih.mpr ⟨hm2, hv⟩)

lemma filterData_idem (m : List (String × JVal)) :
    filterData (filterData m) = filterData m := by
  induction m with
  | nil => rfl
  | cons kv rest ih =>
    obtain ⟨k0, v0⟩ := kv
    by_cases h : isNullish v0 = true
    · rw [filterData, if_pos h, ih]
    · rw [filterData, if_neg h, filterData, if_neg h, ih]

/-! ### The claims -/

set_option maxRecDepth 200000 in
/-- Claim C1: with partnerId "P1", signing key "secret", method "GET", path "/balance",
empty query, the given date and the hash of the empty body, getSignature returns exactly
"TB1-HMAC-SHA256 P1:" followed by the lowercase hex HMAC-SHA256 (key "secret") of the
stated canonical string. -/
theorem c1_signature_example :
    getSignature "secret" "P1"
      ⟨"GET", "",
       ⟨"", "Mon, 01 Jan 2024 00:00:00 GMT", "baas_test.talkbank.io", "application/json",
        some "e3b0c44298fc1c149afbf4c8996fb92427ae41e4649b934ca495991b7852b855"⟩,
       none⟩ "" "/balance" =
    "TB1-HMAC-SHA256 P1:" ++ hmacSha256Hex "secret"
      "GET\n/api/v1/balance\n\ndate:Mon, 01 Jan 2024 00:00:00 GMT\ntb-content-sha256:e3b0c44298fc1c149afbf4c8996fb92427ae41e4649b934ca495991b7852b855\ne3b0c44298fc1c149afbf4c8996fb92427ae41e4649b934ca495991b7852b855" := by
  have h1 : getSignature "secret" "P1"
      ⟨"GET", "",
       ⟨"", "Mon, 01 Jan 2024 00:00:00 GMT", "baas_test.talkbank.io", "application/json",
        some "e3b0c44298fc1c149afbf4c8996fb92427ae41e4649b934ca495991b7852b855"⟩,
       none⟩ "" "/balance" =
      "TB1-HMAC-SHA256 " ++ "P1" ++ ":" ++ hmacSha256Hex "secret"
        (canonicalString "GET" "/balance" "" "Mon, 01 Jan 2024 00:00:00 GMT"
          "e3b0c44298fc1c149afbf4c8996fb92427ae41e4649b934ca495991b7852b855") := rfl
  rw [h1,
    show canonicalString "GET" "/balance" "" "Mon, 01 Jan 2024 00:00:00 GMT"
        "e3b0c44298fc1c149afbf4c8996fb92427ae41e4649b934ca495991b7852b855" =
      "GET\n/api/v1/balance\n\ndate:Mon, 01 Jan 2024 00:00:00 GMT\ntb-content-sha256:e3b0c44298fc1c149afbf4c8996fb92427ae41e4649b934ca495991b7852b855\ne3b0c44298fc1c149afbf4c8996fb92427ae41e4649b934ca495991b7852b855"
      from by decide,
    show ("TB1-HMAC-SHA256 " ++ "P1" ++ ":" : String) = "TB1-HMAC-SHA256 P1:" from by decide]

set_option maxRecDepth 200000 in
/-- Claim C2 counterexample: with a date-header value carrying a leading space, the
signature the source computes differs from the claim's formula, because the source trims
the whole "date:value" line (keeping the space after the colon) while the claim trims the
value alone. -/
theorem c2_counterexample :
    getSignature "k" "P" ⟨"", "", ⟨"", " D", "h", "application/json", some ""⟩, none⟩ "" "" ≠
      "TB1-HMAC-SHA256 " ++ "P" ++ ":" ++
        hmacSha256Hex "k" (specCanonicalString "" "" "" " D" "") := by
  decide

/-- Claim C2 (amended): for every string inputs, getSignature returns
"TB1-HMAC-SHA256 " ++ partnerId ++ ":" ++ hex(HMAC-SHA256(token, s)) where s is the
amended canonical string whose two header lines are trimmed as whole label:value lines;
this coincides with the spec's value-alone trims whenever the date and hash values carry
no leading whitespace. -/
theorem c2_canonical_format (token partnerId method u url query date sha : String)
    (a host ct : String) (d : Option String) :
    getSignature token partnerId ⟨method, u, ⟨a, date, host, ct, some sha⟩, d⟩ query url =
      "TB1-HMAC-SHA256 " ++ partnerId ++ ":" ++
        hmacSha256Hex token (amendedCanonicalString method url query date sha) := by
  show "TB1-HMAC-SHA256 " ++ partnerId ++ ":" ++
      hmacSha256Hex token (canonicalString method url query date sha) = _
  rw [canonical_eq_amended]

set_option maxRecDepth 100000 in
/-- Claim C3: at the failing input (query limit=50, skip=500) the dispatched URL is the
literal "undefined?limit=50&skip=500" — line 79 of the source interpolates this.url,
which the instance never has — instead of the resolved URL with the query appended. -/
theorem c3_query_url_bug :
    (mkClient "P1" "secret" none).map
      (fun c => (createRequest c "/balance" "GET" none
        (some [("limit", QVal.num 50), ("skip", QVal.num 500)]) none "D").2.url) =
      Except.ok "undefined?limit=50&skip=500" ∧
    "undefined?limit=50&skip=500" ≠ defaultBaseUrl ++ "/balance" ++ "?" ++ "limit=50&skip=500" := by
  constructor
  · rw [mkClient_default]
    show Except.ok ((createRequest sampleClient "/balance" "GET" none
      (some [("limit", QVal.num 50), ("skip", QVal.num 500)]) none "D").2.url) = _
    exact congrArg Except.ok (by decide)
  · decide

/-- Claim C4 counterexample: after one createRequest call the instance's stored config
template does not equal its prior value — the shallowly-cloned headers object was mutated
(its Authorization entry is no longer the template's empty string). -/
theorem c4_counterexample :
    (mkClient "P1" "secret" none).map
      (fun c => ((createRequest c "/balance" "GET" none none none "D").1.config.headers.Authorization
        == c.config.headers.Authorization)) = Except.ok false := rfl

/-- Claim C4 (amended): every createRequest call leaves partnerId, token, baseUrl,
urlLocation and the template's method, url and data fields unchanged, but the template's
headers object after the call is exactly the dispatched request's headers object (date,
tb-content-sha256 and Authorization freshly overwritten), because the per-call clone is
shallow; concurrent calls therefore do share mutable state. -/
theorem c4_shallow_clone (c : Client) (url method : String)
    (data : Option (List (String × JVal))) (query : Option (List (String × QVal)))
    (options : Option ReqOptions) (now : String) :
    (createRequest c url method data query options now).1 =
      { c with config :=
        { c.config with headers := (createRequest c url method data query options now).2.headers } } ∧
    (createRequest c url method data query options now).1.partnerId = c.partnerId ∧
    (createRequest c url method data query options now).1.token = c.token ∧
    (createRequest c url method data query options now).1.baseUrl = c.baseUrl ∧
    (createRequest c url method data query options now).1.urlLocation = c.urlLocation ∧
    (createRequest c url method data query options now).1.config.method = c.config.method ∧
    (createRequest c url method data query options now).1.config.url = c.config.url ∧
    (createRequest c url method data query options now).1.config.data = c.config.data ∧
    (createRequest c url method data query options now).1.config.headers.date = now :=
  ⟨rfl, rfl, rfl, rfl, rfl, rfl, rfl, rfl, rfl⟩

/-- Claim C5: the tb-content-sha256 value is the SHA-256 hex of the serialized JSON body
exactly when the method is POST or PUT and the body is a non-empty object; in every other
case it is SHA-256 of the empty string, the digest e3b0c4…2b855, and no payload is
attached. -/
theorem c5_content_hash (c : Client) (url method : String)
    (data : Option (List (String × JVal))) (query : Option (List (String × QVal)))
    (options : Option ReqOptions) (now : String) :
    (createRequest c url method data query options now).2.headers.tbContentSha256 =
      some (if (method == "POST" || method == "PUT") &&
               (match data with | some d => !d.isEmpty | none => false)
            then sha256Hex (jsonStringifyObj (data.getD []))
            else "e3b0c44298fc1c149afbf4c8996fb92427ae41e4649b934ca495991b7852b855") ∧
    (createRequest c url method data query options now).2.data =
      (if (method == "POST" || method == "PUT") &&
          (match data with | some d => !d.isEmpty | none => false)
       then some (jsonStringifyObj (data.getD [])) else none) := by
  rcases data with _ | d
  · simp [createRequest, sha256Hex_empty]
  · cases hm : (method == "POST" || method == "PUT") <;> cases hd : d.isEmpty <;>
      simp [createRequest, hm, hd, sha256Hex_empty]

/-- Claim C6: for identical method, path, query, date and body, a call dispatched with
rewriteUri = true and one dispatched without options compute identical Authorization
header values — the signature is computed over the canonical /api/v1 + path form, never
over the rewritten dispatch URL. -/
theorem c6_signature_rewrite_invariant (c : Client) (url method : String)
    (data : Option (List (String × JVal))) (query : Option (List (String × QVal)))
    (now : String) :
    (createRequest c url method data query (some ⟨true⟩) now).2.headers.Authorization =
      (createRequest c url method data query none now).2.headers.Authorization := rfl

/-- Claim C7: filterData is idempotent, and a pair survives the filter exactly when its
value is neither null nor undefined — in particular keys bound to 0, false, or the empty
string are never removed. -/
theorem c7_filter_idempotent_nullish (m : List (String × JVal)) :
    filterData (filterData m) = filterData m ∧
    ∀ k v, ((k, v) ∈ filterData m ↔ ((k, v) ∈ m ∧ v ≠ JVal.null ∧ v ≠ JVal.undef)) :=
  ⟨filterData_idem m, fun k v => filterData_mem m k v⟩

/-- Claim C8 counterexample: with a non-null bank filter the legacy method does not
issue the GET /transactions request at all — it raises a ReferenceError — contradicting
the claim that the call proceeds without error with an empty query. -/
theorem c8_counterexample :
    (mkClient "P1" "secret" none).bind
      (fun c => getAccountHistory c none none (some "gazprombank") none none "D") =
      Except.error JsError.referenceError := rfl

/-- Claim C8 (amended): with at least one truthy optional filter, getAccountHistory
throws a ReferenceError (its query-building branches assign to the undeclared identifier
data) before any request is issued; the filters are indeed never applied, but loudly, not
silently. -/
theorem c8_reference_error (c : Client) (dateFrom dateTo bank limit page : Option String)
    (now : String)
    (h : (truthyStr bank || truthyStr limit || truthyStr page ||
          truthyStr dateFrom || truthyStr dateTo) = true) :
    getAccountHistory c dateFrom dateTo bank limit page now = .error .referenceError := by
  rw [getAccountHistory, if_pos (by simp [h])]

/-- Claim C8 witness: the amended theorem applied at a concrete truthy bank filter. -/
theorem c8_witness :
    (truthyStr (some "sberbank") || truthyStr (none : Option String) || truthyStr none ||
      truthyStr none || truthyStr none) = true ∧
    getAccountHistory sampleClient none none (some "sberbank") none none "D" =
      .error .referenceError :=
  ⟨by decide,
   c8_reference_error sampleClient none none (some "sberbank") none none "D" (by decide)⟩

/-- Claim C9 counterexample: the empty string does not parse (getLocation is none on it),
yet construction succeeds, because a falsy baseUrl argument is replaced by the default
URL before parsing. -/
theorem c9_counterexample :
    getLocation "" = none ∧ (mkClient "P1" "secret" (some "")).toOption.isSome = true :=
  ⟨rfl, rfl⟩

/-- Claim C9 (amended): for every non-empty baseUrl string on which getLocation returns
none, constructing a Client fails immediately — reading .host of the null parse result
throws before the constructor returns. -/
theorem c9_fail_fast (partnerId token b : String) (h1 : b ≠ "") (h2 : getLocation b = none) :
    mkClient partnerId token (some b) = .error .typeError := by
  have hb : (if b = "" then defaultBaseUrl else b) = b := if_neg h1
  rw [mkClient]
  simp only [hb, h2]

/-- Claim C9 witness: the amended theorem applied at the malformed URL "notaurl". -/
theorem c9_witness :
    ("notaurl" ≠ "" ∧ getLocation "notaurl" = none) ∧
    mkClient "P1" "secret" (some "notaurl") = .error .typeError :=
  ⟨⟨by decide, rfl⟩, c9_fail_fast "P1" "secret" "notaurl" (by decide) rfl⟩

/-- Claim C10: filterData mutates its argument in place — in the heap view it hands back
the same reference, the argument's slot now holds the entries minus the null/undefined
ones, every other slot is untouched, and every surviving pair was a pair of the original
object. -/
theorem c10_filter_in_place (heap : List (List (String × JVal))) (r : Nat)
    (m : List (String × JVal)) (h : heap[r]? = some m) :
    (filterDataInPlace heap r).2 = r ∧
    (filterDataInPlace heap r).1[r]? = some (filterData m) ∧
    (∀ r2, r2 ≠ r → (filterDataInPlace heap r).1[r2]? = heap[r2]?) ∧
    (∀ k v, (k, v) ∈ filterData m → (k, v) ∈ m) := by
  have hlt : r < heap.length := by
    rcases List.getElem?_eq_some.mp h with ⟨hl, _⟩
    exact hl
  have hg : heap.getD r [] = m := by
    rw [List.getD_eq_getElem?_getD, h]
    rfl
  refine ⟨rfl, ?_, ?_, ?_⟩
  · show (heap.set r (filterData (heap.getD r [])))[r]? = some (filterData m)
    rw [hg, List.getElem?_set_self hlt]
  · intro r2 hr2
    show (heap.set r (filterData (heap.getD r [])))[r2]? = heap[r2]?
    exact List.getElem?_set_ne (Ne.symm hr2)
  · intro k v hv
    exact ((filterData_mem m k v).mp hv).1

/-- Claim C10 witness: the theorem applied to a one-slot heap holding an object with one
null entry and one string entry. -/
theorem c10_witness :
    ([[("a", JVal.null), ("b", JVal.str "x")]] : List (List (String × JVal)))[0]? =
      some [("a", JVal.null), ("b", JVal.str "x")] ∧
    ((filterDataInPlace [[("a", JVal.null), ("b", JVal.str "x")]] 0).2 = 0 ∧
     (filterDataInPlace [[("a", JVal.null), ("b", JVal.str "x")]] 0).1[0]? =
       some (filterData [("a", JVal.null), ("b", JVal.str "x")]) ∧
     (∀ r2, r2 ≠ 0 →
       (filterDataInPlace [[("a", JVal.null), ("b", JVal.str "x")]] 0).1[r2]? =
         ([[("a", JVal.null), ("b", JVal.str "x")]] : List (List (String × JVal)))[r2]?) ∧
     (∀ k v, (k, v) ∈ filterData [("a", JVal.null), ("b", JVal.str "x")] →
       (k, v) ∈ [("a", JVal.null), ("b", JVal.str "x")])) :=
  ⟨rfl, c10_filter_in_place [[("a", JVal.null), ("b", JVal.str "x")]] 0
    [("a", JVal.null), ("b", JVal.str "x")] rfl⟩

end TalkBank
